import Mathlib

/-!
# Verification of `coregx/stream` (Go): WebSocket and SSE models

Shallow embedding of the library's WebSocket frame codec (`frame.go`),
connection logic (`conn.go`), close-code handling (`message.go`), the
handshake (`handshake.go`), the SSE event serialization (`event.go`),
the SSE connection (`conn.go` of package `sse`) and the two broadcast
hubs (`hub.go` of both packages), together with proofs about them.

Machine integers are modelled as `Nat`; Go bitwise operations on
disjoint bit ranges are translated to the equivalent `/`, `%`, `*`, `+`
arithmetic (with the width reduction `% 256` / `% 2^32` made explicit),
byte slices as `List Nat` with every element `< 256`, and fallible Go
functions return `Except`.
-/

namespace Stream2

/-- Errors of package `websocket` (`errors.go`): each constructor is one
of the exported `Err*` values; `ioError` stands for an underlying I/O
failure such as the short reads wrapped by `readFrame`. -/
inductive WsError where
  | protocolError          -- ErrProtocolError
  | invalidOpcode          -- ErrInvalidOpcode
  | reservedBits           -- ErrReservedBits
  | controlFragmented      -- ErrControlFragmented
  | controlTooLarge        -- ErrControlTooLarge
  | frameTooLarge          -- ErrFrameTooLarge
  | invalidUTF8            -- ErrInvalidUTF8
  | closed                 -- ErrClosed
  | unexpectedContinuation -- ErrUnexpectedContinuation
  | invalidMessageType     -- ErrInvalidMessageType
  | ioError                -- wrapped I/O error (e.g. short read)
  deriving Repr, DecidableEq

/-! ## Bytes and big-endian encoding (`encoding/binary`) -/

/-- `binary.BigEndian.PutUint16`: the two big-endian bytes of `v % 2^16`
(`byte(v >> 8)`, `byte(v)`). -/
def putUint16 (v : Nat) : List Nat :=
  [v / 256 % 256, v % 256]

/-- `binary.BigEndian.Uint16`: `uint16(b[1]) | uint16(b[0])<<8`. -/
def beUint16 (b0 b1 : Nat) : Nat :=
  b0 * 256 + b1

/-- `binary.BigEndian.PutUint64`: the eight big-endian bytes of `v % 2^64`. -/
def putUint64 (v : Nat) : List Nat :=
  [v / 256 ^ 7 % 256, v / 256 ^ 6 % 256, v / 256 ^ 5 % 256, v / 256 ^ 4 % 256,
   v / 256 ^ 3 % 256, v / 256 ^ 2 % 256, v / 256 % 256, v % 256]

/-- `binary.BigEndian.Uint64` on eight bytes. -/
def beUint64 (b0 b1 b2 b3 b4 b5 b6 b7 : Nat) : Nat :=
  ((((((b0 * 256 + b1) * 256 + b2) * 256 + b3) * 256 + b4) * 256 + b5) * 256 + b6) * 256 + b7

/-- `io.ReadFull r buf` with `len(buf) = n` over an in-memory stream:
the first `n` bytes and the rest, or an error when fewer than `n`
bytes remain. -/
def readFull (n : Nat) (input : List Nat) : Except WsError (List Nat × List Nat) :=
  if n ≤ input.length then
    .ok (input.take n, input.drop n)
  else
    .error .ioError

/-! ## Go `unicode/utf8` -/

/-- `utf8.Valid` of package `unicode/utf8`: whether the byte sequence is
well-formed UTF-8 (shortest form, no surrogates, max U+10FFFF).  The
bounds on the bytes after the leading byte are Go's `acceptRanges`. -/
def utf8Valid : List Nat → Bool
  | [] => true
  | b0 :: rest =>
    if b0 < 0x80 then
      -- ASCII
      utf8Valid rest
    else if b0 < 0xC2 then
      -- continuation byte or overlong 2-byte prefix: invalid as a leading byte
      false
    else if b0 ≤ 0xDF then
      match rest with
      | b1 :: rest' =>
        if 0x80 ≤ b1 && b1 ≤ 0xBF then utf8Valid rest' else false
      | _ => false
    else if b0 ≤ 0xEF then
      -- three-byte sequences; the first continuation byte range depends on b0
      let lo := if b0 = 0xE0 then 0xA0 else 0x80
      let hi := if b0 = 0xED then 0x9F else 0xBF
      match rest with
      | b1 :: b2 :: rest' =>
        if lo ≤ b1 && b1 ≤ hi && 0x80 ≤ b2 && b2 ≤ 0xBF then utf8Valid rest' else false
      | _ => false
    else if b0 ≤ 0xF4 then
      -- four-byte sequences
      let lo := if b0 = 0xF0 then 0x90 else 0x80
      let hi := if b0 = 0xF4 then 0x8F else 0xBF
      match rest with
      | b1 :: b2 :: b3 :: rest' =>
        if lo ≤ b1 && b1 ≤ hi && 0x80 ≤ b2 && b2 ≤ 0xBF && 0x80 ≤ b3 && b3 ≤ 0xBF then
          utf8Valid rest'
        else false
      | _ => false
    else
      -- 0xF5..0xFF can not start a sequence
      false

/-- UTF-8 encoding of one Unicode code point (Go `utf8.EncodeRune` for
valid runes; all Lean `Char`s are valid runes). -/
def utf8EncodeChar (c : Char) : List Nat :=
  let n := c.toNat
  if n < 0x80 then [n]
  else if n < 0x800 then [0xC0 + n / 64, 0x80 + n % 64]
  else if n < 0x10000 then [0xE0 + n / 4096, 0x80 + n / 64 % 64, 0x80 + n % 64]
  else [0xF0 + n / 262144, 0x80 + n / 4096 % 64, 0x80 + n / 64 % 64, 0x80 + n % 64]

/-- Go `[]byte(s)`: the UTF-8 bytes of a string. -/
def strBytes (s : String) : List Nat :=
  s.data.flatMap utf8EncodeChar

/-- Go `utf8.ValidString s` = `utf8.Valid([]byte(s))`. -/
def utf8ValidString (s : String) : Bool :=
  utf8Valid (strBytes s)

/-- Split a character list at every occurrence of the separator.  An
empty input yields `[[]]`, matching Go's `strings.Split("", sep) =
[""]`. -/
def splitOnChar (sep : Char) : List Char → List (List Char)
  | [] => [[]]
  | c :: cs =>
    if c = sep then [] :: splitOnChar sep cs
    else
      match splitOnChar sep cs with
      | r :: rs => (c :: r) :: rs
      | [] => [[c]]

/-- Go `strings.Split(s, sep)` for a one-character separator (the only
form the library uses). -/
def goSplit (s : String) (sep : Char) : List String :=
  (splitOnChar sep s.data).map String.mk

/-! ## Frame codec (`frame.go`) -/

/-- `maxControlPayload`: control frames must have payload `<= 125` bytes. -/
def maxControlPayload : Nat := 125

/-- `maxFramePayload`: implementation limit for data frames (32 MB). -/
def maxFramePayload : Nat := 32 * 1024 * 1024

/-- `payloadLen7Bit`: lengths `0..125` are stored in the 7-bit field. -/
def payloadLen7Bit : Nat := 125

/-- `payloadLen16Bit`: marker `126` announcing a 16-bit extended length. -/
def payloadLen16Bit : Nat := 126

/-- `payloadLen64Bit`: marker `127` announcing a 64-bit extended length. -/
def payloadLen64Bit : Nat := 127

/-- Opcode constants (`opcode.go`, RFC 6455 Section 5.2). -/
def opcodeContinuation : Nat := 0x0

/-- Text data frame opcode. -/
def opcodeText : Nat := 0x1

/-- Binary data frame opcode. -/
def opcodeBinary : Nat := 0x2

/-- Close control frame opcode. -/
def opcodeClose : Nat := 0x8

/-- Ping control frame opcode. -/
def opcodePing : Nat := 0x9

/-- Pong control frame opcode. -/
def opcodePong : Nat := 0xA

/-- `isControlFrame`: `opcode & 0x08 != 0`. -/
def isControlFrame (opcode : Nat) : Bool :=
  opcode / 8 % 2 = 1

/-- `isDataFrame`: continuation, text, or binary. -/
def isDataFrame (opcode : Nat) : Bool :=
  opcode = opcodeContinuation || opcode = opcodeText || opcode = opcodeBinary

/-- `isValidOpcode`: one of the six opcodes defined by RFC 6455. -/
def isValidOpcode (opcode : Nat) : Bool :=
  opcode = opcodeContinuation || opcode = opcodeText || opcode = opcodeBinary ||
    opcode = opcodeClose || opcode = opcodePing || opcode = opcodePong

/-- The `frame` struct of `frame.go`.  `mask` is the `[4]byte` masking
key (all zeros — the Go zero value — when `masked` is `false`). -/
structure Frame where
  fin : Bool
  rsv1 : Bool
  rsv2 : Bool
  rsv3 : Bool
  opcode : Nat
  masked : Bool
  mask : List Nat
  payload : List Nat
  deriving Repr, DecidableEq

/-- `applyMask` starting at payload offset `i`:
`data[i] ^= mask[i%4]` for each byte. -/
def applyMaskFrom (mask : List Nat) (i : Nat) : List Nat → List Nat
  | [] => []
  | b :: bs => (b ^^^ mask.getD (i % 4) 0) :: applyMaskFrom mask (i + 1) bs

/-- `applyMask` of `frame.go`: XOR each byte with the corresponding mask
byte, cycling through the 4-byte key. -/
def applyMask (data mask : List Nat) : List Nat :=
  applyMaskFrom mask 0 data

/-- `readFrame` of `frame.go`: parse one frame from the front of the
byte stream; returns the frame and the unconsumed rest of the stream.
The steps and the order of the validations mirror the source (each
`return nil, err` is an `else if` arm). -/
def readFrame (input : List Nat) : Except WsError (Frame × List Nat) :=
  match input with
  | b0 :: b1 :: r1 =>
    -- Step 1: 2-byte header.  Byte 0: FIN(1) RSV(3) Opcode(4); byte 1: MASK(1) PayloadLen(7).
    let fin := b0 / 128 % 2 == 1       -- header[0] & 0x80
    let rsv1 := b0 / 64 % 2 == 1       -- header[0] & 0x40
    let rsv2 := b0 / 32 % 2 == 1       -- header[0] & 0x20
    let rsv3 := b0 / 16 % 2 == 1       -- header[0] & 0x10
    let opcode := b0 % 16              -- header[0] & 0x0F
    let masked := b1 / 128 % 2 == 1    -- header[1] & 0x80
    -- Validate opcode, reserved bits, control-frame fragmentation.
    if !isValidOpcode opcode then .error .invalidOpcode
    else if rsv1 || rsv2 || rsv3 then .error .reservedBits
    else if isControlFrame opcode && !fin then .error .controlFragmented
    else
      -- Step 2: payload length (7-bit, 16-bit, or 64-bit).
      let payloadLen7 := b1 % 128      -- header[1] & 0x7F
      let lenResult : Except WsError (Nat × List Nat) :=
        if payloadLen7 = payloadLen16Bit then
          match readFull 2 r1 with
          | .error e => .error e
          | .ok (buf, r) => .ok (beUint16 (buf.getD 0 0) (buf.getD 1 0), r)
        else if payloadLen7 = payloadLen64Bit then
          match readFull 8 r1 with
          | .error e => .error e
          | .ok (buf, r) =>
            let v := beUint64 (buf.getD 0 0) (buf.getD 1 0) (buf.getD 2 0) (buf.getD 3 0)
              (buf.getD 4 0) (buf.getD 5 0) (buf.getD 6 0) (buf.getD 7 0)
            -- RFC 6455 Section 5.2: most significant bit must be 0.
            if v / 2 ^ 63 % 2 = 1 then .error .protocolError   -- payloadLen & (1 << 63)
            else .ok (v, r)
        else .ok (payloadLen7, r1)
      match lenResult with
      | .error e => .error e
      | .ok (payloadLen, r2) =>
        -- Control frame payload limit, then the implementation limit.
        if isControlFrame opcode && decide (payloadLen > maxControlPayload) then
          .error .controlTooLarge
        else if payloadLen > maxFramePayload then .error .frameTooLarge
        else
          -- Step 3: masking key ([4]byte zero value when unmasked).
          match (if masked then readFull 4 r2 else .ok ([0, 0, 0, 0], r2) :
              Except WsError (List Nat × List Nat)) with
          | .error e => .error e
          | .ok (mask, r3) =>
            -- Steps 4-5: payload, unmasked when masked.
            match (if payloadLen > 0 then
                match readFull payloadLen r3 with
                | .error e => .error e
                | .ok (p, r) => .ok ((if masked then applyMask p mask else p), r)
              else .ok ([], r3) : Except WsError (List Nat × List Nat)) with
            | .error e => .error e
            | .ok (payload, r4) =>
              -- Step 6: text frames must be valid UTF-8.
              if decide (opcode = opcodeText) && !utf8Valid payload then .error .invalidUTF8
              else
                .ok ({ fin := fin, rsv1 := rsv1, rsv2 := rsv2, rsv3 := rsv3,
                       opcode := opcode, masked := masked, mask := mask,
                       payload := payload }, r4)
  | _ => .error .ioError

/-- `writeFrame` of `frame.go`: validate the frame and return the bytes
it puts on the wire.  The validations appear in source order as an
if/else chain. -/
def writeFrame (f : Frame) : Except WsError (List Nat) :=
  if !isValidOpcode f.opcode then .error .invalidOpcode
  else if isControlFrame f.opcode && !f.fin then .error .controlFragmented
  else if isControlFrame f.opcode && decide (f.payload.length > maxControlPayload) then
    .error .controlTooLarge
  else if decide (f.opcode = opcodeText) && !utf8Valid f.payload then .error .invalidUTF8
  else if f.payload.length > maxFramePayload then .error .frameTooLarge
  else
    -- Step 1: 2-byte header (the bit ranges are disjoint, so `|=` is `+`).
    let payloadLen := f.payload.length
    let header0 := (if f.fin then 128 else 0) + (if f.rsv1 then 64 else 0) +
      (if f.rsv2 then 32 else 0) + (if f.rsv3 then 16 else 0) + f.opcode % 16
    let header1 := (if f.masked then 128 else 0) +
      (if payloadLen ≤ payloadLen7Bit then payloadLen
       else if payloadLen ≤ 0xFFFF then payloadLen16Bit
       else payloadLen64Bit)
    -- Step 2: extended payload length.
    let ext :=
      if payloadLen > payloadLen7Bit && payloadLen ≤ 0xFFFF then putUint16 payloadLen
      else if payloadLen > 0xFFFF then putUint64 payloadLen
      else []
    -- Step 3: masking key.
    let maskBytes := if f.masked then f.mask else []
    -- Steps 4-5: payload, masked on a copy when needed.
    let payloadBytes := if f.masked then applyMask f.payload f.mask else f.payload
    .ok ([header0, header1] ++ ext ++ maskBytes ++ payloadBytes)

/-- The bytes `writeFrame` produces for a frame that passes its
validations (header, extended length, masking key, masked payload) —
the explicit wire image used by the roundtrip proof. -/
def wireOf (f : Frame) : List Nat :=
  [(if f.fin then 128 else 0) + (if f.rsv1 then 64 else 0) + (if f.rsv2 then 32 else 0) +
     (if f.rsv3 then 16 else 0) + f.opcode % 16,
   (if f.masked then 128 else 0) +
     (if f.payload.length ≤ payloadLen7Bit then f.payload.length
      else if f.payload.length ≤ 0xFFFF then payloadLen16Bit else payloadLen64Bit)] ++
  (if f.payload.length > payloadLen7Bit && f.payload.length ≤ 0xFFFF then
    putUint16 f.payload.length
   else if f.payload.length > 0xFFFF then putUint64 f.payload.length else []) ++
  (if f.masked then f.mask else []) ++
  (if f.masked then applyMask f.payload f.mask else f.payload)

/-- A frame as the roundtrip claim quantifies it: any FIN for data
opcodes and FIN=1 for control opcodes, reserved bits zero, a defined
opcode, any mask choice, text payloads valid UTF-8, payload length
within the limits (`<= 125` for control frames, `<= maxFramePayload`
overall).  The masking key is the `[4]byte` of the struct: four bytes
when masking, the Go zero value `[0,0,0,0]` when not. -/
def ValidFrame (f : Frame) : Prop :=
  isValidOpcode f.opcode = true ∧
  (isControlFrame f.opcode = true → f.fin = true) ∧
  f.rsv1 = false ∧ f.rsv2 = false ∧ f.rsv3 = false ∧
  (f.opcode = opcodeText → utf8Valid f.payload = true) ∧
  (isControlFrame f.opcode = true → f.payload.length ≤ maxControlPayload) ∧
  f.payload.length ≤ maxFramePayload ∧
  (f.masked = true → f.mask.length = 4) ∧
  (f.masked = false → f.mask = [0, 0, 0, 0])


/-! ## Message types and close codes (`message.go`) -/

/-- `TextMessage MessageType = 1`. -/
def TextMessage : Nat := 1

/-- `BinaryMessage MessageType = 2`. -/
def BinaryMessage : Nat := 2

/-- `CloseNormalClosure CloseCode = 1000`. -/
def CloseNormalClosure : Nat := 1000

/-- `CloseProtocolError CloseCode = 1002`. -/
def CloseProtocolError : Nat := 1002

/-- `CloseNoStatusReceived CloseCode = 1005`.  Reserved: per the doc
comment in `message.go` it "MUST NOT be set in close frame". -/
def CloseNoStatusReceived : Nat := 1005

/-- `CloseAbnormalClosure CloseCode = 1006` (reserved pseudo-code). -/
def CloseAbnormalClosure : Nat := 1006

/-- `CloseInvalidFramePayloadData CloseCode = 1007`. -/
def CloseInvalidFramePayloadData : Nat := 1007

/-- `CloseTLSHandshake CloseCode = 1015` (reserved pseudo-code). -/
def CloseTLSHandshake : Nat := 1015

/-! ## Connection (`conn.go`)

The `Conn` state.  The wire is observed as the list of frames the
connection has successfully serialized with `writeFrame`
(`sentFrames`); `onceUsed` is the `sync.Once` guard of
`CloseWithCode`. -/

/-- State of a WebSocket `Conn`. -/
structure ConnState where
  isServer : Bool
  closed : Bool
  onceUsed : Bool
  inFragment : Bool
  fragmentType : Nat
  fragmentBuf : List Nat
  sentFrames : List Frame
  tcpClosed : Bool
  deriving Repr, DecidableEq

/-- `newConn`: fresh connection state after a successful handshake. -/
def newConn (isServer : Bool) : ConnState :=
  { isServer := isServer, closed := false, onceUsed := false, inFragment := false,
    fragmentType := 0, fragmentBuf := [], sentFrames := [], tcpClosed := false }

/-- The fixed client-side mask of `conn.go`
(`[4]byte{0x12, 0x34, 0x56, 0x78}`). -/
def clientMask : List Nat := [0x12, 0x34, 0x56, 0x78]

/-- The frame every `Conn` writer builds: a single final unfragmented
frame with the given opcode, masked exactly on client connections
(with the fixed client mask; zero mask otherwise). -/
def mkConnFrame (c : ConnState) (opcode : Nat) (payload : List Nat) : Frame :=
  { fin := true, rsv1 := false, rsv2 := false, rsv3 := false, opcode := opcode,
    masked := !c.isServer, mask := if !c.isServer then clientMask else [0, 0, 0, 0],
    payload := payload }

/-- Serialize a frame to the connection's wire: on success the frame is
appended to `sentFrames`, otherwise the `writeFrame` error surfaces. -/
def sendFrame (c : ConnState) (f : Frame) : ConnState × Option WsError :=
  match writeFrame f with
  | .ok _ => ({ c with sentFrames := c.sentFrames ++ [f] }, none)
  | .error e => (c, some e)

/-- `Conn.Write`: build a single unfragmented frame for the message type
and send it (server frames unmasked, client frames masked). -/
def connWrite (c : ConnState) (messageType : Nat) (data : List Nat) :
    ConnState × Option WsError :=
  if c.closed then (c, some .closed)
  else if messageType = TextMessage then
    if !utf8Valid data then (c, some .invalidUTF8)
    else sendFrame c (mkConnFrame c opcodeText data)
  else if messageType = BinaryMessage then
    sendFrame c (mkConnFrame c opcodeBinary data)
  else (c, some .invalidMessageType)

/-- `Conn.Pong`: send a pong control frame echoing the ping data. -/
def connPong (c : ConnState) (data : List Nat) : ConnState × Option WsError :=
  if c.closed then (c, some .closed)
  else if data.length > 125 then (c, some .controlTooLarge)
  else sendFrame c (mkConnFrame c opcodePong data)

/-- `Conn.CloseWithCode`: guarded by `closeOnce`.  The first caller
latches `closed`, builds the `2 + len(reason)` byte payload (big-endian
status code, then the reason), validates a non-empty reason as UTF-8,
sends one close frame, and closes the TCP connection.  Later callers
are a no-op returning `nil`. -/
def closeWithCode (c : ConnState) (code : Nat) (reason : List Nat) :
    ConnState × Option WsError :=
  if c.onceUsed then (c, none)
  else
    let c1 := { c with onceUsed := true, closed := true }
    -- payload[0] = byte(code >> 8); payload[1] = byte(code & 0xFF)
    let payload := [code / 256 % 256, code % 256] ++ reason
    if reason ≠ [] && !utf8Valid reason then (c1, some .invalidUTF8)
    else
      match sendFrame c1 (mkConnFrame c1 opcodeClose payload) with
      | (c2, none) => ({ c2 with tcpClosed := true }, none)
      | (c2, some e) => (c2, some e)

/-- `Conn.Close`: `CloseWithCode(CloseNormalClosure, "")`. -/
def connClose (c : ConnState) : ConnState × Option WsError :=
  closeWithCode c CloseNormalClosure []

/-- `K` successive calls to `Conn.Close` on a WebSocket connection. -/
def wsCloseIter : Nat → ConnState → ConnState
  | 0, c => c
  | k + 1, c => wsCloseIter k (connClose c).1

/-- `Conn.handleCloseFrame`: latch closed, parse the peer's status code
(defaulting to `CloseNoStatusReceived` when the payload is shorter than
two bytes) and echo it back via `CloseWithCode(code, "")`. -/
def handleCloseFrame (c : ConnState) (payload : List Nat) : ConnState :=
  let c1 := { c with closed := true }
  let code :=
    if payload.length ≥ 2 then beUint16 (payload.getD 0 0) (payload.getD 1 0)
    else CloseNoStatusReceived
  (closeWithCode c1 code []).1

/-- The frame-processing loop of `Conn.Read`, with explicit fuel (each
iteration consumes at least two input bytes, so `input.length` bounds
the number of iterations).  Returns the final connection state, the
unconsumed input, and either `(messageType, payload)` or the error the
read call surfaces. -/
def connReadLoop : Nat → ConnState → List Nat →
    ConnState × List Nat × Except WsError (Nat × List Nat)
  | 0, c, input => (c, input, .error .ioError)
  | fuel + 1, c, input =>
    match readFrame input with
    | .error e => (c, input, .error e)
    | .ok (f, rest) =>
      if f.opcode = opcodePing then
        -- auto-respond to Ping with Pong, then continue reading
        match connPong c f.payload with
        | (c', none) => connReadLoop fuel c' rest
        | (c', some e) => (c', rest, .error e)
      else if f.opcode = opcodePong then
        connReadLoop fuel c rest
      else if f.opcode = opcodeClose then
        (handleCloseFrame c f.payload, rest, .error .closed)
      else if f.opcode = opcodeText || f.opcode = opcodeBinary then
        if f.fin then
          -- unfragmented message
          if f.opcode = TextMessage && !utf8Valid f.payload then
            ((closeWithCode c CloseInvalidFramePayloadData (strBytes "invalid UTF-8")).1,
              rest, .error .invalidUTF8)
          else
            (c, rest, .ok (f.opcode, f.payload))
        else
          -- start of fragmented message
          connReadLoop fuel
            { c with inFragment := true, fragmentType := f.opcode, fragmentBuf := f.payload }
            rest
      else
        -- continuation frame
        if !c.inFragment then
          ((closeWithCode c CloseProtocolError (strBytes "unexpected continuation")).1,
            rest, .error .unexpectedContinuation)
        else
          let c' := { c with fragmentBuf := c.fragmentBuf ++ f.payload }
          if f.fin then
            let payload := c'.fragmentBuf
            let c'' := { c' with inFragment := false }
            if c''.fragmentType = TextMessage && !utf8Valid payload then
              ((closeWithCode c'' CloseInvalidFramePayloadData (strBytes "invalid UTF-8")).1,
                rest, .error .invalidUTF8)
            else
              (c'', rest, .ok (c''.fragmentType, payload))
          else
            connReadLoop fuel c' rest

/-- `Conn.Read`: fail fast on a latched connection, then run the frame
loop. -/
def connRead (c : ConnState) (input : List Nat) :
    ConnState × List Nat × Except WsError (Nat × List Nat) :=
  if c.closed then (c, input, .error .closed)
  else connReadLoop (input.length + 1) c input

/-! ## SSE events (`sse/event.go`) -/

/-- The `Event` struct: optional type, ID and retry, required data.
Go's `Retry int` may be negative, hence `Int`. -/
structure Event where
  type : String
  id : String
  data : String
  retry : Int
  deriving Repr, DecidableEq

/-- `NewEvent`: an event with the given data and zero values elsewhere. -/
def NewEvent (data : String) : Event :=
  { type := "", id := "", data := data, retry := 0 }

/-- `Event.String`: serialize to `text/event-stream` format, mirroring
the builder of `event.go` (type, id, retry when present, one
`data: <line>\n` per newline-separated line, final `\n`). -/
def eventString (e : Event) : String :=
  (if e.type ≠ "" then "event: " ++ e.type ++ "\n" else "") ++
  (if e.id ≠ "" then "id: " ++ e.id ++ "\n" else "") ++
  (if e.retry > 0 then "retry: " ++ toString e.retry ++ "\n" else "") ++
  String.join ((goSplit e.data '\n').map (fun line => "data: " ++ line ++ "\n")) ++
  "\n"

/-- `Comment`: `": " + text + "\n\n"`. -/
def sseComment (text : String) : String :=
  ": " ++ text ++ "\n\n"

/-- Modelled from the spec: the serialization format the spec
prescribes ("emit fields in the order event-type, id, retry, data, each
as `<field>: <value>\n`; split the data field on newline producing one
`data: <line>\n` per line; terminate the event with an additional `\n`;
only non-empty type, non-empty id, and strictly positive retry are
emitted").  Used as the comparison point for the source's
`Event.String`. -/
def specEventSerialize (e : Event) : String :=
  String.join
    (((if e.type ≠ "" then ["event: " ++ e.type] else []) ++
      (if e.id ≠ "" then ["id: " ++ e.id] else []) ++
      (if e.retry > 0 then ["retry: " ++ toString e.retry] else []) ++
      (goSplit e.data '\n').map (fun line => "data: " ++ line)).map (· ++ "\n")) ++ "\n"

/-! ## SSE connection (`sse/conn.go`) -/

/-- Errors of package `sse`. -/
inductive SseError where
  | connectionClosed -- ErrConnectionClosed
  | hubClosed        -- ErrHubClosed
  deriving Repr, DecidableEq

/-- State of an SSE `Conn`: the latch, whether `cancel` ran, how many
times `close(done)` executed (closing the `Done` channel — the Done
signal), and the event texts written to the response. -/
structure SseConnState where
  closed : Bool
  cancelCalled : Bool
  doneCloseCount : Nat
  wire : List String
  deriving Repr, DecidableEq

/-- A fresh SSE connection as produced by `UpgradeWithContext`. -/
def sseNewConn : SseConnState :=
  { closed := false, cancelCalled := false, doneCloseCount := 0, wire := [] }

/-- `sse.Conn.Send`: refuse on a closed connection, otherwise write the
serialized event. -/
def sseSend (c : SseConnState) (e : Event) : SseConnState × Option SseError :=
  if c.closed then (c, some .connectionClosed)
  else ({ c with wire := c.wire ++ [eventString e] }, none)

/-- `sse.Conn.SendData`: `Send(NewEvent(data))`. -/
def sseSendData (c : SseConnState) (data : String) : SseConnState × Option SseError :=
  sseSend c (NewEvent data)

/-- `sse.Conn.Close`: the first call latches `closed`, cancels the
context and closes the `done` channel; every later call is a no-op.
Both return `nil`. -/
def sseClose (c : SseConnState) : SseConnState × Option SseError :=
  if c.closed then (c, none)
  else
    ({ c with closed := true, cancelCalled := true, doneCloseCount := c.doneCloseCount + 1 },
      none)

/-- `K` successive calls to `sse.Conn.Close`. -/
def sseCloseIter : Nat → SseConnState → SseConnState
  | 0, c => c
  | k + 1, c => sseCloseIter k (sseClose c).1

/-! ## SSE hub (`sse/hub.go`) -/

/-- The value broadcast on a `Hub[T]`, as seen by the dynamic type
switch of `Hub.convertToString`: either `T` is `string`, or it
implements `fmt.Stringer` (carrying the result of `String()`), or it is
any other type (carrying the result of `json.Marshal`, `none` when
marshalling fails). -/
inductive BroadcastValue where
  | str (v : String)
  | stringer (v : String)
  | other (json : Option String)
  deriving Repr, DecidableEq

/-- `Hub.convertToString`: the type switch — `string` as-is,
`fmt.Stringer` via `String()`, otherwise JSON, with `""` on a
marshalling error. -/
def convertToString : BroadcastValue → String
  | .str v => v
  | .stringer v => v
  | .other json =>
    match json with
    | some jsonData => jsonData
    | none => ""

/-- Modelled from the spec: the dispatch order the spec prescribes for
typed SSE broadcast ("if `T` is textual, emit as-is; else if `T`
exposes a string projection, use it; (3) else encode as JSON; failure
of the encoding step drops the message").  `none` means dropped. -/
def specConvert : BroadcastValue → Option String
  | .str v => some v
  | .stringer v => some v
  | .other json => json

/-- `Hub.handleBroadcast` (delivery part): convert the data; when the
converted string is empty deliver nothing, otherwise `SendData` the
string to every client in the snapshot.  The result is the list of
(client, written event text) deliveries. -/
def handleBroadcast (clients : List Nat) (data : BroadcastValue) : List (Nat × String) :=
  let dataStr := convertToString data
  if dataStr = "" then []
  else clients.map (fun client => (client, eventString (NewEvent dataStr)))

/-! ## WebSocket hub (`websocket/hub.go`) -/

/-- The `broadcast` case of `Hub.Run`: write the message to every
registered client with `c.Write(BinaryMessage, msg)`. -/
def hubRunDeliver (clients : List ConnState) (message : List Nat) : List ConnState :=
  clients.map (fun client => (connWrite client BinaryMessage message).1)

/-- `Hub.Broadcast`: queue the message on the broadcast channel. -/
def hubBroadcast (queue : List (List Nat)) (message : List Nat) : List (List Nat) :=
  queue ++ [message]

/-- `Hub.BroadcastText`: `Broadcast([]byte(text))`. -/
def hubBroadcastText (queue : List (List Nat)) (text : String) : List (List Nat) :=
  hubBroadcast queue (strBytes text)

/-- `Hub.BroadcastJSON`: marshal, then `Broadcast(data)`; a marshalling
failure is returned and nothing is queued. -/
def hubBroadcastJSON (queue : List (List Nat)) (marshalled : Option (List Nat)) :
    List (List Nat) × Bool :=
  match marshalled with
  | none => (queue, false)
  | some data => (hubBroadcast queue data, true)

/-- The frames a single broadcast delivery appends to one client's
wire. -/
def broadcastFramesForClient (c : ConnState) (message : List Nat) : List Frame :=
  (connWrite c BinaryMessage message).1.sentFrames.drop c.sentFrames.length

/-! ## Handshake (`handshake.go`) -/

/-- Go `unicode.IsSpace`: ASCII whitespace, NEL, NBSP and the Unicode
space separators. -/
def goIsSpace (c : Char) : Bool :=
  c = ' ' || c = '\t' || c = '\n' || c.toNat = 0x0B || c.toNat = 0x0C || c = '\r' ||
    c.toNat = 0x85 || c.toNat = 0xA0 || c.toNat = 0x1680 ||
    (0x2000 ≤ c.toNat && c.toNat ≤ 0x200A) ||
    c.toNat = 0x2028 || c.toNat = 0x2029 || c.toNat = 0x202F || c.toNat = 0x205F ||
    c.toNat = 0x3000

/-- Go `strings.TrimSpace`: drop leading and trailing whitespace. -/
def trimSpace (s : String) : String :=
  String.mk (((s.data.dropWhile goIsSpace).reverse.dropWhile goIsSpace).reverse)

/-- Go `strings.ToLower` restricted to the ASCII letters that the
handshake token comparison exercises. -/
def toLowerGo (s : String) : String :=
  String.mk (s.data.map (fun c =>
    if 'A' ≤ c && c ≤ 'Z' then Char.ofNat (c.toNat + 32) else c))

/-- `headerContainsToken`: lowercase both sides, split the header on
commas, and compare each trimmed part to the token. -/
def headerContainsToken (header token : String) : Bool :=
  let header := toLowerGo header
  let token := toLowerGo token
  (goSplit header ',').any (fun h => trimSpace h = token)

/-- `negotiateSubprotocol`: with a non-empty server list, walk the
comma-separated client list in order and return the first trimmed
client protocol that occurs in the server list; `""` when nothing
matches or no server protocols are configured. -/
def negotiateSubprotocol (protocolHeader : String) (serverProtos : List String) : String :=
  if serverProtos.length = 0 then ""
  else negotiateLoop (goSplit protocolHeader ',') serverProtos
where
  /-- The nested loops of `negotiateSubprotocol`. -/
  negotiateLoop : List String → List String → String
    | [], _ => ""
    | clientProto :: clientProtos, serverProtos =>
      let clientProto := trimSpace clientProto
      if serverProtos.contains clientProto then clientProto
      else negotiateLoop clientProtos serverProtos

/-! ### SHA-1 (`crypto/sha1`, FIPS 180) and base64 (`encoding/base64`)

`computeAcceptKey` calls into the Go standard library; these are
faithful models of those library functions. -/

/-- 32-bit word truncation. -/
def w32 (n : Nat) : Nat := n % 2 ^ 32

/-- 32-bit left rotation of a word. -/
def rotl32 (x s : Nat) : Nat :=
  (x * 2 ^ s + x / 2 ^ (32 - s)) % 2 ^ 32

/-- SHA-1 working state (five 32-bit words). -/
structure Sha1State where
  a : Nat
  b : Nat
  c : Nat
  d : Nat
  e : Nat
  deriving Repr, DecidableEq

/-- The SHA-1 initial hash value. -/
def sha1Init : Sha1State :=
  { a := 0x67452301, b := 0xEFCDAB89, c := 0x98BADCFE, d := 0x10325476, e := 0xC3D2E1F0 }

/-- Extend a 16-word block to the 80-word message schedule:
`w[i] = rotl1(w[i-3] xor w[i-8] xor w[i-14] xor w[i-16])`. -/
def sha1Extend : Nat → List Nat → List Nat
  | 0, ws => ws
  | n + 1, ws =>
    let len := ws.length
    let w := rotl32
      ((ws.getD (len - 3) 0) ^^^ (ws.getD (len - 8) 0) ^^^
        (ws.getD (len - 14) 0) ^^^ (ws.getD (len - 16) 0)) 1
    sha1Extend n (ws ++ [w])

/-- One SHA-1 round. -/
def sha1Round (st : Sha1State) (i w : Nat) : Sha1State :=
  let f :=
    if i < 20 then (st.b &&& st.c) ||| ((st.b ^^^ 0xFFFFFFFF) &&& st.d)
    else if i < 40 then st.b ^^^ st.c ^^^ st.d
    else if i < 60 then (st.b &&& st.c) ||| (st.b &&& st.d) ||| (st.c &&& st.d)
    else st.b ^^^ st.c ^^^ st.d
  let k :=
    if i < 20 then 0x5A827999
    else if i < 40 then 0x6ED9EBA1
    else if i < 60 then 0x8F1BBCDC
    else 0xCA62C1D6
  let temp := w32 (rotl32 st.a 5 + f + st.e + k + w)
  { a := temp, b := st.a, c := rotl32 st.b 30, d := st.c, e := st.d }

/-- Compress one 16-word block into the running hash. -/
def sha1Block (h : Sha1State) (block : List Nat) : Sha1State :=
  let ws := sha1Extend 64 block
  let st := (List.range 80).foldl (fun st i => sha1Round st i (ws.getD i 0)) h
  { a := w32 (h.a + st.a), b := w32 (h.b + st.b), c := w32 (h.c + st.c),
    d := w32 (h.d + st.d), e := w32 (h.e + st.e) }

/-- SHA-1 padding: `0x80`, zeros to 56 mod 64, then the bit length as
eight big-endian bytes. -/
def sha1Pad (msg : List Nat) : List Nat :=
  msg ++ [0x80] ++ List.replicate ((119 - msg.length % 64) % 64) 0 ++
    putUint64 (8 * msg.length)

/-- Split a byte list into 64-byte blocks (structural recursion on a
fuel bound so that the definition reduces in the kernel; the fuel
`l.length` is at least the number of blocks). -/
def toBlocksFuel : Nat → List Nat → List (List Nat)
  | 0, _ => []
  | _ + 1, [] => []
  | n + 1, l => l.take 64 :: toBlocksFuel n (l.drop 64)

/-- Split a byte list into 64-byte blocks. -/
def toBlocks (l : List Nat) : List (List Nat) :=
  toBlocksFuel l.length l

/-- Group bytes into big-endian 32-bit words. -/
def toWords : List Nat → List Nat
  | b0 :: b1 :: b2 :: b3 :: rest => (((b0 * 256 + b1) * 256 + b2) * 256 + b3) :: toWords rest
  | _ => []

/-- The four big-endian bytes of a 32-bit word. -/
def putUint32 (v : Nat) : List Nat :=
  [v / 256 ^ 3 % 256, v / 256 ^ 2 % 256, v / 256 % 256, v % 256]

/-- `sha1.Sum`: the 20-byte SHA-1 digest of a byte sequence. -/
def sha1Bytes (msg : List Nat) : List Nat :=
  let st := (toBlocks (sha1Pad msg)).foldl (fun h blk => sha1Block h (toWords blk)) sha1Init
  putUint32 st.a ++ putUint32 st.b ++ putUint32 st.c ++ putUint32 st.d ++ putUint32 st.e

/-- The standard base64 alphabet of `encoding/base64.StdEncoding`. -/
def base64Alphabet : List Char :=
  "ABCDEFGHIJKLMNOPQRSTUVWXYZabcdefghijklmnopqrstuvwxyz0123456789+/".data

/-- One base64 digit. -/
def b64Char (n : Nat) : Char := base64Alphabet.getD n 'A'

/-- `base64.StdEncoding.EncodeToString` on the byte groups. -/
def base64Chars : List Nat → List Char
  | b0 :: b1 :: b2 :: rest =>
    b64Char (b0 / 4) :: b64Char (b0 % 4 * 16 + b1 / 16) ::
      b64Char (b1 % 16 * 4 + b2 / 64) :: b64Char (b2 % 64) :: base64Chars rest
  | [b0, b1] =>
    [b64Char (b0 / 4), b64Char (b0 % 4 * 16 + b1 / 16), b64Char (b1 % 16 * 4), '=']
  | [b0] =>
    [b64Char (b0 / 4), b64Char (b0 % 4 * 16), '=', '=']
  | [] => []

/-- `base64.StdEncoding.EncodeToString`. -/
def base64Encode (bytes : List Nat) : String :=
  String.mk (base64Chars bytes)

/-- `websocketGUID`: the magic GUID of RFC 6455 Section 1.3. -/
def websocketGUID : String := "258EAFA5-E914-47DA-95CA-C5AB0DC85B11"

/-- `computeAcceptKey`: base64 of the SHA-1 of the client key followed
by the GUID. -/
def computeAcceptKey (key : String) : String :=
  base64Encode (sha1Bytes (strBytes key ++ strBytes websocketGUID))

/-- The parts of the HTTP request that `Upgrade` inspects.
`originAllowed` is the outcome of the configured `CheckOrigin` callback
(`true` when none is configured). -/
structure UpgradeRequest where
  method : String
  upgradeHeader : String
  connectionHeader : String
  version : String
  secKey : String
  protocolHeader : String
  originAllowed : Bool
  deriving Repr, DecidableEq

/-- Handshake failures of `Upgrade` (`errors.go`). -/
inductive HandshakeError where
  | invalidMethod     -- ErrInvalidMethod
  | missingUpgrade    -- ErrMissingUpgrade
  | missingConnection -- ErrMissingConnection
  | invalidVersion    -- ErrInvalidVersion
  | missingSecKey     -- ErrMissingSecKey
  | originDenied      -- ErrOriginDenied
  deriving Repr, DecidableEq

/-- The 101 response `Upgrade` writes on success. -/
structure UpgradeResponse where
  accept : String
  subprotocol : String
  deriving Repr, DecidableEq

/-- `Upgrade` (validation steps 1-9): verify the method and headers,
negotiate the subprotocol, compute the accept key, and answer 101.  A
failed negotiation is not an error: the response simply carries no
subprotocol. -/
def upgrade (r : UpgradeRequest) (serverProtos : List String) :
    Except HandshakeError UpgradeResponse :=
  if r.method ≠ "GET" then .error .invalidMethod
  else if !headerContainsToken r.upgradeHeader "websocket" then .error .missingUpgrade
  else if !headerContainsToken r.connectionHeader "upgrade" then .error .missingConnection
  else if r.version ≠ "13" then .error .invalidVersion
  else if r.secKey = "" then .error .missingSecKey
  else if !r.originAllowed then .error .originDenied
  else
    .ok { accept := computeAcceptKey r.secKey,
          subprotocol := negotiateSubprotocol r.protocolHeader serverProtos }

deriving instance DecidableEq for Except

/-! ## Helper lemmas -/

theorem strJoin_go (t : List String) (a : String) :
    List.foldl (fun r s => r ++ s) a t = a ++ List.foldl (fun r s => r ++ s) "" t := by
  induction t generalizing a with
  | nil => simp [String.append_empty]
  | cons h t ih =>
    simp only [List.foldl_cons]
    rw [ih (a ++ h), ih ("" ++ h)]
    show (a ++ h) ++ _ = a ++ (("" ++ h) ++ _)
    rw [String.append_assoc]
    rfl

theorem strJoin_nil : String.join ([] : List String) = "" := rfl

theorem strJoin_cons (h : String) (t : List String) :
    String.join (h :: t) = h ++ String.join t := by
  simp only [String.join, List.foldl_cons]
  exact strJoin_go t ("" ++ h)

theorem strJoin_append (l1 l2 : List String) :
    String.join (l1 ++ l2) = String.join l1 ++ String.join l2 := by
  induction l1 with
  | nil => rfl
  | cons h t ih => simp [strJoin_cons, ih, String.append_assoc]

theorem strEmpty_append (a : String) : "" ++ a = a := rfl

/-! ## Claim C6 -/

/-- C6: SSE event serialization emits, in order, `event: <type>\n`
exactly when the type is non-empty, `id: <id>\n` exactly when the id is
non-empty, `retry: <ms>\n` exactly when retry is strictly positive,
then one `data: <line>\n` per newline-separated line of the data field
(empty data yields exactly one `data: \n`), terminated by one
additional `\n`; in particular the multi-line example from the spec
serializes as stated. -/
theorem sse_event_serialization_follows_spec :
    (∀ e : Event, eventString e = specEventSerialize e) ∧
    eventString { type := "msg", id := "42", data := "line1\nline2\nline3", retry := 0 } =
      "event: msg\nid: 42\ndata: line1\ndata: line2\ndata: line3\n\n" ∧
    eventString (NewEvent "") = "data: \n\n" := by
  refine ⟨?_, by decide, by decide⟩
  intro e
  unfold eventString specEventSerialize
  rw [List.map_append, List.map_append, List.map_append, strJoin_append, strJoin_append,
    strJoin_append, List.map_map]
  by_cases ht : e.type = "" <;> by_cases hi : e.id = "" <;> by_cases hr : e.retry > 0 <;>
    simp [ht, hi, hr, strJoin_cons, strJoin_nil, strEmpty_append, String.append_assoc,
      Function.comp_def]

/-! ## Claim C8 -/

set_option maxRecDepth 10000 in
/-- C8: the `Sec-WebSocket-Accept` value is the base64 encoding of the
20-byte SHA-1 digest of the client key concatenated with the fixed
GUID, and the RFC 6455 example key produces the well-known accept
value. -/
theorem accept_key_is_base64_sha1 :
    (∀ key : String, computeAcceptKey key =
      base64Encode (sha1Bytes (strBytes key ++ strBytes websocketGUID))) ∧
    (∀ msg : List Nat, (sha1Bytes msg).length = 20) ∧
    computeAcceptKey "dGhlIHNhbXBsZSBub25jZQ==" = "s3pPLMBiTxaQ9kYGzzhZRbK+xOo=" := by
  refine ⟨fun _ => rfl, ?_, by decide⟩
  intro msg
  simp [sha1Bytes, putUint32]

/-! ## Claim C7 -/

theorem negotiateLoop_eq_findFirst (toks protos : List String) :
    negotiateSubprotocol.negotiateLoop toks protos =
      (((toks.map trimSpace).find? (fun t => protos.contains t)).getD "") := by
  induction toks with
  | nil => rfl
  | cons p ps ih =>
    simp only [negotiateSubprotocol.negotiateLoop, List.map_cons, List.find?_cons]
    cases h : protos.contains (trimSpace p)
    · rw [if_neg (by simp [h]), ih]
    · rw [if_pos (by simp [h])]
      rfl

/-- C7: with a non-empty server list the handshake selects the first
client-offered protocol (in client order, tokens trimmed) that is also
in the server list, and the upgrade succeeds for every valid request
regardless of whether any protocol matched. -/
theorem subprotocol_negotiation_first_client_match (protos : List String)
    (header : String) (r : UpgradeRequest)
    (hne : protos ≠ [])
    (hm : r.method = "GET") (hu : headerContainsToken r.upgradeHeader "websocket" = true)
    (hc : headerContainsToken r.connectionHeader "upgrade" = true)
    (hv : r.version = "13") (hk : r.secKey ≠ "") (ho : r.originAllowed = true) :
    negotiateSubprotocol header protos =
      (((goSplit header ',').map trimSpace).find? (fun t => protos.contains t)).getD "" ∧
    upgrade r protos =
      .ok ⟨computeAcceptKey r.secKey, negotiateSubprotocol r.protocolHeader protos⟩ := by
  constructor
  · unfold negotiateSubprotocol
    rw [if_neg (by simpa using hne)]
    exact negotiateLoop_eq_findFirst _ _
  · unfold upgrade
    simp [hm, hu, hc, hv, hk, ho]

/-- C7 witness: a matched offer, an unmatched offer (no subprotocol, no
error), and a successful upgrade. -/
theorem subprotocol_negotiation_witness :
    negotiateSubprotocol " chat , superchat" ["superchat", "other"] = "superchat" ∧
    negotiateSubprotocol "chat" ["other"] = "" ∧
    upgrade ⟨"GET", "websocket", "Upgrade", "13", "key123", "chat", true⟩ ["other"] =
      .ok ⟨computeAcceptKey "key123", ""⟩ := by
  have h1 := subprotocol_negotiation_first_client_match ["superchat", "other"]
    " chat , superchat" ⟨"GET", "websocket", "Upgrade", "13", "key123", "chat", true⟩
    (by decide) rfl (by decide) (by decide) rfl (by decide) rfl
  have h2 := subprotocol_negotiation_first_client_match ["other"]
    "chat" ⟨"GET", "websocket", "Upgrade", "13", "key123", "chat", true⟩
    (by decide) rfl (by decide) (by decide) rfl (by decide) rfl
  refine ⟨h1.1.trans (by decide), h2.1.trans (by decide), h2.2.trans ?_⟩
  have h3 : negotiateSubprotocol "chat" ["other"] = "" := h2.1.trans (by decide)
  rw [h3]

/-! ## Claim C5 -/

theorem connClose_of_onceUsed (c : ConnState) (h : c.onceUsed = true) :
    connClose c = (c, none) := by
  unfold connClose closeWithCode
  rw [if_pos h]

theorem wsCloseIter_fixed (k : Nat) (c : ConnState) (h : c.onceUsed = true) :
    wsCloseIter k c = c := by
  induction k with
  | zero => rfl
  | succ n ih => rw [wsCloseIter, connClose_of_onceUsed c h, ih]

theorem sseClose_of_closed (c : SseConnState) (h : c.closed = true) :
    sseClose c = (c, none) := by
  unfold sseClose
  rw [if_pos h]

theorem sseCloseIter_fixed (k : Nat) (c : SseConnState) (h : c.closed = true) :
    sseCloseIter k c = c := by
  induction k with
  | zero => rfl
  | succ n ih => rw [sseCloseIter, sseClose_of_closed c h, ih]

/-- C5: Close is idempotent on both connection kinds: `K ≥ 1` calls to
Close put at most one close frame on the WebSocket wire and close the
SSE `done` channel exactly once; the first caller latches the
connection closed and every later caller is a no-op returning
success. -/
theorem close_idempotent_both_kinds (b : Bool) (K : Nat) (hK : 1 ≤ K) :
    ((wsCloseIter K (newConn b)).sentFrames.filter
        (fun f => f.opcode = opcodeClose)).length ≤ 1 ∧
    (connClose (newConn b)).1.closed = true ∧
    (connClose (newConn b)).1.onceUsed = true ∧
    (∀ k, 1 ≤ k → connClose (wsCloseIter k (newConn b)) = (wsCloseIter k (newConn b), none)) ∧
    (sseCloseIter K sseNewConn).doneCloseCount = 1 ∧
    (sseClose sseNewConn).1.closed = true ∧
    (∀ k, 1 ≤ k → sseClose (sseCloseIter k sseNewConn) = (sseCloseIter k sseNewConn, none)) := by
  have honce : (connClose (newConn b)).1.onceUsed = true := by cases b <;> decide
  have hsse : (sseClose sseNewConn).1.closed = true := by decide
  have hiter : ∀ k, 1 ≤ k → wsCloseIter k (newConn b) = (connClose (newConn b)).1 := by
    intro k hk
    cases k with
    | zero => omega
    | succ n => rw [wsCloseIter, wsCloseIter_fixed n _ honce]
  have hsseiter : ∀ k, 1 ≤ k → sseCloseIter k sseNewConn = (sseClose sseNewConn).1 := by
    intro k hk
    cases k with
    | zero => omega
    | succ n => rw [sseCloseIter, sseCloseIter_fixed n _ hsse]
  refine ⟨?_, by cases b <;> decide, honce, ?_, ?_, hsse, ?_⟩
  · rw [hiter K hK]
    cases b <;> decide
  · intro k hk
    rw [hiter k hk]
    exact connClose_of_onceUsed _ honce
  · rw [hsseiter K hK]
    decide
  · intro k hk
    rw [hsseiter k hk]
    exact sseClose_of_closed _ hsse

/-- C5 witness: three calls on each connection kind. -/
theorem close_idempotent_witness :
    (1 : Nat) ≤ 3 ∧
    ((wsCloseIter 3 (newConn true)).sentFrames.filter
        (fun f => f.opcode = opcodeClose)).length ≤ 1 ∧
    (sseCloseIter 3 sseNewConn).doneCloseCount = 1 := by
  have h := close_idempotent_both_kinds true 3 (by decide)
  exact ⟨by decide, h.1, h.2.2.2.2.1⟩

/-! ## Claim C9 -/

/-- C9 counterexample: broadcasting the empty string on an SSE
`Hub[string]` with one registered client delivers nothing, although the
JSON encoding step was never involved, let alone failed; a non-empty
string is delivered. -/
theorem sse_broadcast_drop_counterexample :
    handleBroadcast [0] (.str "") = [] ∧
    specConvert (.str "") = some "" ∧
    handleBroadcast [0] (.str "x") = [(0, "data: x\n\n")] := by decide

/-- C9 (amended): the conversion dispatch is string as-is, then
`fmt.Stringer`, then JSON; the broadcast is dropped (delivering to no
client) exactly when the converted string is empty — on a JSON encoding
failure, but also when the string or string-projection value itself is
empty — and otherwise every registered client receives the converted
data. -/
theorem sse_broadcast_dispatch_amended :
    (∀ v : BroadcastValue, convertToString v = (specConvert v).getD "") ∧
    (∀ (v : BroadcastValue) (clients : List Nat),
      handleBroadcast clients v = [] ↔ (clients = [] ∨ convertToString v = "")) ∧
    (∀ (v : BroadcastValue) (clients : List Nat), convertToString v ≠ "" →
      handleBroadcast clients v =
        clients.map (fun client => (client, eventString (NewEvent (convertToString v))))) := by
  refine ⟨?_, ?_, ?_⟩
  · intro v
    cases v with
    | str v => rfl
    | stringer v => rfl
    | other json => cases json <;> rfl
  · intro v clients
    unfold handleBroadcast
    by_cases h : convertToString v = ""
    · simp [h]
    · simp [h, List.map_eq_nil_iff]
  · intro v clients h
    unfold handleBroadcast
    simp [h]

/-- C9 amended witness -/
theorem sse_broadcast_dispatch_amended_witness :
    handleBroadcast [7] (.stringer "hi") = [(7, eventString (NewEvent "hi"))] := by
  have h := sse_broadcast_dispatch_amended.2.2 (.stringer "hi") [7] (by decide)
  simpa using h

/-! ## Claim C10 -/

theorem sendFrame_new_frames (c : ConnState) (f : Frame) :
    (sendFrame c f).1.sentFrames.drop c.sentFrames.length = [] ∨
    (sendFrame c f).1.sentFrames.drop c.sentFrames.length = [f] := by
  unfold sendFrame
  cases writeFrame f with
  | ok bs => right; simp
  | error e => left; simp [List.drop_length]

/-- C10: every frame a hub broadcast delivery writes carries the binary
opcode (0x2), and all three surface methods (`Broadcast`,
`BroadcastText`, `BroadcastJSON`) feed the same broadcast channel that
`Run` delivers with `Write(BinaryMessage, msg)`. -/
theorem hub_broadcast_always_binary :
    (∀ (c : ConnState) (msg : List Nat) (fr : Frame),
      fr ∈ broadcastFramesForClient c msg → fr.opcode = opcodeBinary) ∧
    (∀ (clients : List ConnState) (msg : List Nat),
      hubRunDeliver clients msg = clients.map (fun c => (connWrite c BinaryMessage msg).1)) ∧
    (∀ (q : List (List Nat)) (t : String), hubBroadcastText q t = hubBroadcast q (strBytes t)) ∧
    (∀ (q : List (List Nat)) (d : List Nat),
      hubBroadcastJSON q (some d) = (hubBroadcast q d, true)) := by
  refine ⟨?_, fun _ _ => rfl, fun _ _ => rfl, fun _ _ => rfl⟩
  intro c msg fr hmem
  unfold broadcastFramesForClient connWrite at hmem
  by_cases hc : c.closed = true
  · rw [if_pos hc] at hmem
    simp [List.drop_length] at hmem
  · rw [if_neg hc, if_neg (show ¬(BinaryMessage = TextMessage) by decide), if_pos rfl] at hmem
    rcases sendFrame_new_frames c (mkConnFrame c opcodeBinary msg) with h | h <;> rw [h] at hmem
    · simp at hmem
    · simp only [List.mem_singleton] at hmem
      rw [hmem]
      rfl

/-- C10 witness -/
theorem hub_broadcast_always_binary_witness :
    (mkConnFrame (newConn true) opcodeBinary [1, 2, 3]) ∈
      broadcastFramesForClient (newConn true) [1, 2, 3] ∧
    (mkConnFrame (newConn true) opcodeBinary [1, 2, 3]).opcode = opcodeBinary := by
  refine ⟨by decide, hub_broadcast_always_binary.1 (newConn true) [1, 2, 3] _ (by decide)⟩


/-! ## Claim C4 -/

theorem applyMaskFrom_length (mask : List Nat) (i : Nat) (l : List Nat) :
    (applyMaskFrom mask i l).length = l.length := by
  induction l generalizing i with
  | nil => rfl
  | cons b bs ih => simp [applyMaskFrom, ih]

theorem applyMaskFrom_involution (mask : List Nat) (i : Nat) (l : List Nat) :
    applyMaskFrom mask i (applyMaskFrom mask i l) = l := by
  induction l generalizing i with
  | nil => rfl
  | cons b bs ih => simp [applyMaskFrom, ih, Nat.xor_cancel_right]

theorem applyMask_length (data mask : List Nat) :
    (applyMask data mask).length = data.length := applyMaskFrom_length mask 0 data

theorem applyMask_involution (data mask : List Nat) :
    applyMask (applyMask data mask) mask = data := applyMaskFrom_involution mask 0 data

theorem readFull_exact (l : List Nat) : readFull l.length l = .ok (l, []) := by
  unfold readFull
  simp

theorem writeFrame_ok (f : Frame) (h : ValidFrame f) : writeFrame f = .ok (wireOf f) := by
  obtain ⟨hop, hcf, hr1, hr2, hr3, hutf8, hclen, hmax, hmlen, hmz⟩ := h
  have hbig : ¬ (f.payload.length > maxFramePayload) := Nat.not_lt.mpr hmax
  have hutf : (decide (f.opcode = opcodeText) && !utf8Valid f.payload) = false := by
    by_cases ht : f.opcode = opcodeText
    · simp [ht, hutf8 ht]
    · simp [ht]
  cases hctl : isControlFrame f.opcode with
  | true =>
    simp [writeFrame, wireOf, hop, hctl, hcf hctl, Nat.not_lt.mpr (hclen hctl), hutf, hbig]
  | false =>
    simp [writeFrame, wireOf, hop, hctl, hutf, hbig]

theorem readFull_two (a b : Nat) (rest : List Nat) :
    readFull 2 (a :: b :: rest) = .ok ([a, b], rest) := by
  unfold readFull
  simp

theorem readFull_four (a b c d : Nat) (rest : List Nat) :
    readFull 4 (a :: b :: c :: d :: rest) = .ok ([a, b, c, d], rest) := by
  unfold readFull
  simp [List.take_succ_cons, List.drop_succ_cons]

theorem readFull_eight (a b c d e f g h : Nat) (rest : List Nat) :
    readFull 8 (a :: b :: c :: d :: e :: f :: g :: h :: rest) =
      .ok ([a, b, c, d, e, f, g, h], rest) := by
  unfold readFull
  simp [List.take_succ_cons, List.drop_succ_cons]

theorem applyMask_nil (mask : List Nat) : applyMask [] mask = [] := rfl

set_option maxHeartbeats 1000000 in
theorem readFrame_wireOf (f : Frame) (h : ValidFrame f) :
    readFrame (wireOf f) = .ok (f, []) := by
  obtain ⟨fin, rsv1, rsv2, rsv3, opcode, masked, mask, payload⟩ := f
  obtain ⟨hop, hcf, hr1, hr2, hr3, hutf8, hclen, hmax, hmlen, hmz⟩ := h
  simp only at hop hcf hr1 hr2 hr3 hutf8 hclen hmax hmlen hmz
  subst hr1
  subst hr2
  subst hr3
  simp only [maxControlPayload] at hclen
  simp only [maxFramePayload] at hmax
  have hoplt : opcode < 16 := by
    simp [isValidOpcode, opcodeContinuation, opcodeText, opcodeBinary, opcodeClose,
      opcodePing, opcodePong] at hop
    omega
  have hop16 : opcode % 16 = opcode := Nat.mod_eq_of_lt hoplt
  have e1 : ((if fin = true then 128 else 0) + opcode) % 16 = opcode := by
    cases fin <;> simp <;> omega
  have e2 : (((if fin = true then 128 else 0) + opcode) / 128 % 2 == 1) = fin := by
    cases fin <;> simp <;> omega
  have e3 : (((if fin = true then 128 else 0) + opcode) / 64 % 2 == 1) = false := by
    cases fin <;> simp <;> omega
  have e4 : (((if fin = true then 128 else 0) + opcode) / 32 % 2 == 1) = false := by
    cases fin <;> simp <;> omega
  have e5 : (((if fin = true then 128 else 0) + opcode) / 16 % 2 == 1) = false := by
    cases fin <;> simp <;> omega
  have g1 : (!isValidOpcode opcode) = false := by simp [hop]
  have hctlfin : (isControlFrame opcode && !fin) = false := by
    cases hc : isControlFrame opcode
    · simp
    · simp [hcf hc]
  have hg_utf : (decide (opcode = opcodeText) && !utf8Valid payload) = false := by
    by_cases ht : opcode = opcodeText
    · simp [ht, hutf8 ht]
    · simp [ht]
  have hg_utf2 : ¬(opcode = 1 ∧ utf8Valid payload = false) := by
    rintro ⟨h1, h2⟩
    rw [hutf8 h1] at h2
    cases h2
  have hrp : readFull payload.length payload = .ok (payload, []) := readFull_exact payload
  rcases Nat.lt_or_ge payload.length 126 with h126 | h126
  · -- 7-bit length range
    have hL : payload.length ≤ 125 := by omega
    have e6 : (payload.length / 128 % 2 == 1) = false := by simp; omega
    have e7 : payload.length % 128 = payload.length := by omega
    have hne126 : payload.length ≠ 126 := by omega
    have hne127 : payload.length ≠ 127 := by omega
    have hnbig : ¬(payload.length > 33554432) := by omega
    have hngt125 : ¬(payload.length > 125) := by omega
    have hngt65535 : ¬(65535 < payload.length) := by omega
    have hgctl : (isControlFrame opcode && decide (payload.length > 125)) = false := by
      simp [hngt125]
    cases masked with
    | false =>
      have hmz4 : mask = [0, 0, 0, 0] := hmz rfl
      subst hmz4
      by_cases hp : payload = []
      · subst hp
        simp [wireOf, payloadLen7Bit, payloadLen16Bit, payloadLen64Bit, hop16]
        simp [readFrame, payloadLen16Bit, payloadLen64Bit, maxControlPayload,
          maxFramePayload, opcodeText,
          e1, e2, e3, e4, e5, g1, hctlfin, hg_utf, hg_utf2, hgctl]
      · have hp0 : 0 < payload.length := List.length_pos.mpr hp
        simp [wireOf, payloadLen7Bit, payloadLen16Bit, payloadLen64Bit, hL, hngt125,
          hngt65535, hop16]
        simp [readFrame, payloadLen16Bit, payloadLen64Bit, maxControlPayload,
          maxFramePayload, opcodeText,
          e1, e2, e3, e4, e5, e6, e7, g1, hctlfin, hg_utf, hg_utf2, hgctl,
          hne126, hne127, hnbig, hngt65535, hrp, hp0]
    | true =>
      have hm4 : mask.length = 4 := hmlen rfl
      obtain ⟨m0, m1, m2, m3, rfl⟩ : ∃ a b c d, mask = [a, b, c, d] := by
        rcases mask with _ | ⟨m0, m⟩
        · simp at hm4
        rcases m with _ | ⟨m1, m⟩
        · simp at hm4
        rcases m with _ | ⟨m2, m⟩
        · simp at hm4
        rcases m with _ | ⟨m3, m⟩
        · simp at hm4
        rcases m with _ | ⟨m4, m⟩
        · exact ⟨m0, m1, m2, m3, rfl⟩
        · simp at hm4
      have hrpm : readFull payload.length (applyMask payload [m0, m1, m2, m3]) =
          .ok (applyMask payload [m0, m1, m2, m3], []) := by
        conv_lhs => rw [← applyMask_length payload [m0, m1, m2, m3]]
        exact readFull_exact _
      have e6m : ((128 + payload.length) / 128 % 2 == 1) = true := by
        simp
        omega
      have e6m2 : ((payload.length / 128 + 1) % 2 == 1) = true := by
        simp
        omega
      have e6mp : (payload.length / 128 + 1) % 2 = 1 := by omega
      have e7m : (128 + payload.length) % 128 = payload.length := by omega
      by_cases hp : payload = []
      · subst hp
        simp [wireOf, payloadLen7Bit, payloadLen16Bit, payloadLen64Bit, hop16]
        simp [readFrame, payloadLen16Bit, payloadLen64Bit, maxControlPayload,
          maxFramePayload, opcodeText, applyMask_nil, readFull_four,
          e1, e2, e3, e4, e5, g1, hctlfin, hg_utf, hg_utf2, hgctl]
      · have hp0 : 0 < payload.length := List.length_pos.mpr hp
        simp [wireOf, payloadLen7Bit, payloadLen16Bit, payloadLen64Bit, hL, hngt125,
          hngt65535, hop16]
        simp [readFrame, payloadLen16Bit, payloadLen64Bit, maxControlPayload,
          maxFramePayload, opcodeText, readFull_four, applyMask_involution,
          e1, e2, e3, e4, e5, e6m, e6m2, e6mp, e7m, e7, g1, hctlfin, hg_utf, hg_utf2,
          hgctl, hne126, hne127, hnbig, hngt65535, hrpm, hp0]
  · -- extended length ranges: L ≥ 126, so the opcode is a data opcode
    have hctlF : isControlFrame opcode = false := by
      cases hc : isControlFrame opcode
      · rfl
      · exact absurd (hclen hc) (by omega)
    have hp0 : 0 < payload.length := by omega
    have h125F : ¬(payload.length ≤ 125) := by omega
    have hgt125 : payload.length > 125 := by omega
    have hnbig : ¬(payload.length > 33554432) := by omega
    rcases Nat.lt_or_ge payload.length 65536 with h65536 | h65536
    · -- 16-bit length range
      have hle65535 : payload.length ≤ 65535 := by omega
      have hbe : payload.length / 256 % 256 * 256 + payload.length % 256 =
          payload.length := by omega
      cases masked with
      | false =>
        have hmz4 : mask = [0, 0, 0, 0] := hmz rfl
        subst hmz4
        simp [wireOf, payloadLen7Bit, payloadLen16Bit, payloadLen64Bit, putUint16,
          h125F, hle65535, hgt125, hop16]
        simp [readFrame, payloadLen16Bit, payloadLen64Bit, maxControlPayload,
          maxFramePayload, opcodeText, readFull_two, beUint16,
          e1, e2, e3, e4, e5, g1, hctlfin, hctlF, hg_utf, hg_utf2,
          hbe, hnbig, hrp, hp0]
      | true =>
        have hm4 : mask.length = 4 := hmlen rfl
        obtain ⟨m0, m1, m2, m3, rfl⟩ : ∃ a b c d, mask = [a, b, c, d] := by
          rcases mask with _ | ⟨m0, m⟩
          · simp at hm4
          rcases m with _ | ⟨m1, m⟩
          · simp at hm4
          rcases m with _ | ⟨m2, m⟩
          · simp at hm4
          rcases m with _ | ⟨m3, m⟩
          · simp at hm4
          rcases m with _ | ⟨m4, m⟩
          · exact ⟨m0, m1, m2, m3, rfl⟩
          · simp at hm4
        have hrpm : readFull payload.length (applyMask payload [m0, m1, m2, m3]) =
            .ok (applyMask payload [m0, m1, m2, m3], []) := by
          conv_lhs => rw [← applyMask_length payload [m0, m1, m2, m3]]
          exact readFull_exact _
        simp [wireOf, payloadLen7Bit, payloadLen16Bit, payloadLen64Bit, putUint16,
          h125F, hle65535, hgt125, hop16]
        simp [readFrame, payloadLen16Bit, payloadLen64Bit, maxControlPayload,
          maxFramePayload, opcodeText, readFull_two, readFull_four, beUint16,
          applyMask_involution,
          e1, e2, e3, e4, e5, g1, hctlfin, hctlF, hg_utf, hg_utf2,
          hbe, hnbig, hrpm, hp0]
    · -- 64-bit length range
      have hgt65535 : 65535 < payload.length := by omega
      have hn65535 : ¬(payload.length ≤ 65535) := by omega
      have hmsb : ¬(payload.length / 9223372036854775808 % 2 = 1) := by omega
      have hbe64 : ((((((payload.length / 72057594037927936 % 256 * 256 +
          payload.length / 281474976710656 % 256) * 256 +
          payload.length / 1099511627776 % 256) * 256 +
          payload.length / 4294967296 % 256) * 256 +
          payload.length / 16777216 % 256) * 256 +
          payload.length / 65536 % 256) * 256 +
          payload.length / 256 % 256) * 256 + payload.length % 256 =
          payload.length := by omega
      cases masked with
      | false =>
        have hmz4 : mask = [0, 0, 0, 0] := hmz rfl
        subst hmz4
        simp [wireOf, payloadLen7Bit, payloadLen16Bit, payloadLen64Bit, putUint64,
          h125F, hgt65535, hn65535, hgt125, hop16]
        simp [readFrame, payloadLen16Bit, payloadLen64Bit, maxControlPayload,
          maxFramePayload, opcodeText, readFull_eight, beUint64,
          e1, e2, e3, e4, e5, g1, hctlfin, hctlF, hg_utf, hg_utf2,
          hbe64, hmsb, hnbig, hn65535, hrp, hp0]
      | true =>
        have hm4 : mask.length = 4 := hmlen rfl
        obtain ⟨m0, m1, m2, m3, rfl⟩ : ∃ a b c d, mask = [a, b, c, d] := by
          rcases mask with _ | ⟨m0, m⟩
          · simp at hm4
          rcases m with _ | ⟨m1, m⟩
          · simp at hm4
          rcases m with _ | ⟨m2, m⟩
          · simp at hm4
          rcases m with _ | ⟨m3, m⟩
          · simp at hm4
          rcases m with _ | ⟨m4, m⟩
          · exact ⟨m0, m1, m2, m3, rfl⟩
          · simp at hm4
        have hrpm : readFull payload.length (applyMask payload [m0, m1, m2, m3]) =
            .ok (applyMask payload [m0, m1, m2, m3], []) := by
          conv_lhs => rw [← applyMask_length payload [m0, m1, m2, m3]]
          exact readFull_exact _
        simp [wireOf, payloadLen7Bit, payloadLen16Bit, payloadLen64Bit, putUint64,
          h125F, hgt65535, hn65535, hgt125, hop16]
        simp [readFrame, payloadLen16Bit, payloadLen64Bit, maxControlPayload,
          maxFramePayload, opcodeText, readFull_eight, readFull_four, beUint64,
          applyMask_involution,
          e1, e2, e3, e4, e5, g1, hctlfin, hctlF, hg_utf, hg_utf2,
          hbe64, hmsb, hnbig, hn65535, hrpm, hp0]

/-- C4: for every valid frame, `writeFrame` succeeds and `readFrame` on
the produced bytes consumes them entirely and returns a frame equal to
the original in all fields; the validity predicate covers all payload
lengths up to the implementation limit, in particular the length
encoding boundaries 0, 125, 126, 1000, 65535, 65536. -/
theorem frame_write_read_roundtrip (f : Frame) (h : ValidFrame f) :
    ∃ bytes, writeFrame f = .ok bytes ∧ readFrame bytes = .ok (f, []) :=
  ⟨wireOf f, writeFrame_ok f h, readFrame_wireOf f h⟩

set_option maxRecDepth 100000 in
/-- C4 witness: concrete roundtrips at the length-encoding boundaries
0 (close), 125 (masked text), 126 (binary) and beyond (1000, masked
binary). -/
theorem frame_write_read_roundtrip_witness :
    (∃ bytes, writeFrame ⟨true, false, false, false, opcodeClose, false, [0, 0, 0, 0], []⟩ =
        .ok bytes ∧
      readFrame bytes =
        .ok (⟨true, false, false, false, opcodeClose, false, [0, 0, 0, 0], []⟩, [])) ∧
    (∃ bytes, writeFrame ⟨true, false, false, false, opcodeText, true, [1, 2, 3, 4],
          List.replicate 125 97⟩ = .ok bytes ∧
      readFrame bytes =
        .ok (⟨true, false, false, false, opcodeText, true, [1, 2, 3, 4],
          List.replicate 125 97⟩, [])) ∧
    (∃ bytes, writeFrame ⟨false, false, false, false, opcodeBinary, false, [0, 0, 0, 0],
          List.replicate 126 255⟩ = .ok bytes ∧
      readFrame bytes =
        .ok (⟨false, false, false, false, opcodeBinary, false, [0, 0, 0, 0],
          List.replicate 126 255⟩, [])) ∧
    (∃ bytes, writeFrame ⟨true, false, false, false, opcodeBinary, true, [18, 52, 86, 120],
          List.replicate 1000 7⟩ = .ok bytes ∧
      readFrame bytes =
        .ok (⟨true, false, false, false, opcodeBinary, true, [18, 52, 86, 120],
          List.replicate 1000 7⟩, [])) :=
  ⟨frame_write_read_roundtrip _ (by unfold ValidFrame; decide),
   frame_write_read_roundtrip _ (by unfold ValidFrame; decide),
   frame_write_read_roundtrip _ (by unfold ValidFrame; decide),
   frame_write_read_roundtrip _ (by unfold ValidFrame; decide)⟩

/-! ## Claims C1, C2, C3 — behaviour of the read path at the decisive inputs -/

/-- C1: on the inbound unfragmented text frame `{FIN=1, text, 0xFF
0xFE}` (bytes `81 02 FF FE`), `readFrame` itself rejects the frame, so
`Conn.Read` surfaces the invalid-utf8 error *without* emitting any
close frame (in particular none with code 1007) and *without* latching
the connection closed. -/
theorem read_invalid_utf8_text_emits_no_close :
    readFrame [0x81, 0x02, 0xFF, 0xFE] = .error .invalidUTF8 ∧
    (connRead (newConn true) [0x81, 0x02, 0xFF, 0xFE]).2.2 = .error .invalidUTF8 ∧
    (connRead (newConn true) [0x81, 0x02, 0xFF, 0xFE]).1.sentFrames = [] ∧
    (connRead (newConn true) [0x81, 0x02, 0xFF, 0xFE]).1.closed = false := by decide

/-- C2: when the peer sends a close frame with an empty payload (bytes
`88 00` — a legal close without a status code), `handleCloseFrame`
echoes `CloseNoStatusReceived` and the connection writes a close frame
whose payload is the big-endian encoding of the reserved pseudo-code
1005 on the wire. -/
theorem close_echo_writes_1005_on_wire :
    ((connRead (newConn true) [0x88, 0x00]).1.sentFrames.map
        (fun f => (f.opcode, f.payload))) = [(opcodeClose, [0x03, 0xED])] ∧
    beUint16 0x03 0xED = CloseNoStatusReceived := by decide

/-- C3: the two-fragment text message `[{FIN=0, text, 0xC3}, {FIN=1,
continuation, 0xA9}]` concatenates to the valid UTF-8 `é`, yet
`readFrame` validates the first fragment in isolation and rejects it,
so `Conn.Read` returns the invalid-utf8 error instead of delivering the
message; a fragment boundary that does not split a character (`"" ++
"é"`) is delivered. -/
theorem fragmented_text_straddle_rejected :
    utf8Valid [0xC3, 0xA9] = true ∧
    utf8Valid [0xC3] = false ∧
    readFrame [0x01, 0x01, 0xC3, 0x80, 0x01, 0xA9] = .error .invalidUTF8 ∧
    (connRead (newConn true) [0x01, 0x01, 0xC3, 0x80, 0x01, 0xA9]).2.2 =
      .error .invalidUTF8 ∧
    (connRead (newConn true) [0x01, 0x00, 0x80, 0x02, 0xC3, 0xA9]).2.2 =
      .ok (TextMessage, [0xC3, 0xA9]) := by decide

end Stream2
